import Mathlib

/-!
Verification development for the ACTS single-trajectory propagation kernel.

The geometric intersection code (`DiscSurface`) and the bound-parameter
correction template (`value_corrector`) are embedded directly from the
repository headers.  The adaptive stepper, its constrained step size, the
physics-extension arbitration and the state bookkeeping are embedded from the
specification, since only their unit tests are part of the repository sample;
every such definition carries a doc comment starting with
`Modelled from the spec:`.  All arithmetic is carried out over the rationals,
the exact-arithmetic counterpart of the double precision used by the code.
-/

namespace ActsSpec

/-- Three-component vector over the rationals, the exact counterpart of the
`Vector3D` used throughout the code. -/
abbrev Vec3 := Fin 3 → ℚ

/-- Dot product of two three-vectors, as `Vector3D::dot`. -/
def dot (a b : Vec3) : ℚ := a 0 * b 0 + a 1 * b 1 + a 2 * b 2

/-- Cross product of two three-vectors, as `Vector3D::cross`. -/
def cross (a b : Vec3) : Vec3 :=
  ![a 1 * b 2 - a 2 * b 1, a 2 * b 0 - a 0 * b 2, a 0 * b 1 - a 1 * b 0]

/-- Result of a ray-surface intersection, as `Acts::Intersection`:
an intersection point, a signed path length and a validity flag. -/
structure Intersection where
  position : Vec3
  pathLength : ℚ
  valid : Bool

/-- The data of a planar disc surface needed by the intersection code:
its center and its normal vector (column 2 of the surface rotation).
Embeds the geometry accessed by `DiscSurface::intersectionEstimate`. -/
structure DiscSurface where
  center : Vec3
  normal : Vec3

/-- Straight-line intersection of `DiscSurface`, embedded from
`DiscSurface::intersectionEstimate` in `ACTS/Surfaces/DiscSurface.hpp`:
`denom = dir.dot(normal)`; if `denom` is nonzero the division is evaluated and
an intersection with path length `u` is returned, valid subject to the
`forceDir` and boundary-check flags; only an exactly zero denominator yields
the no-intersection result `(gpos, 0, false)`.  The boundary check
`isOnSurface` is an outside collaborator and is passed as a predicate. -/
def DiscSurface.intersectionEstimate (s : DiscSurface) (isOnSurf : Vec3 → Bool)
    (gpos dir : Vec3) (forceDir bchk : Bool) : Intersection :=
  let denom := dot dir s.normal
  if denom ≠ 0 then
    let u := dot s.normal (fun i => s.center i - gpos i) / denom
    let intersectPoint : Vec3 := fun i => gpos i + u * dir i
    let isValid := if forceDir then decide (0 < u) else true
    let isValid := if bchk then isValid && isOnSurf intersectPoint else isValid
    { position := intersectPoint, pathLength := u, valid := isValid }
  else
    { position := gpos, pathLength := 0, valid := false }

/-- Traits of one bound parameter, the interface used by `value_corrector`:
`may_modify_value` tells whether writing must correct the value,
`getValue` performs the correction, `isValid` decides the valid range.
Modelled from the spec: the concrete `BoundParameterType` traits are not part
of the repository sample; the spec requires that correction lands in the valid
range and that a parameter type that never modifies values accepts every
value. -/
structure ParamTraits where
  may_modify_value : Bool
  getValue : ℚ → ℚ
  isValid : ℚ → Bool
  valid_getValue : ∀ v, isValid (getValue v) = true
  valid_of_free : may_modify_value = false → ∀ v, isValid v = true

/-- Embedded from `Acts/EventData/detail/value_corrector.hpp`: walks the
parameter pack positionally and replaces `values(pos)` by
`getValue(values(pos))` exactly when the parameter type `may_modify_value`;
other entries are left untouched. -/
def value_corrector (ts : List ParamTraits) (vs : List ℚ) : List ℚ :=
  List.zipWith (fun t v => if t.may_modify_value then t.getValue v else v) ts vs

/-- Integration failures of the adaptive stepper, as `EigenStepperError`. -/
inductive EigenStepperError where
  | StepSizeStalled
  | StepSizeAdjustmentFailed
deriving DecidableEq, Repr

/-- Modelled from the spec: the propagator options consumed by one step of the
adaptive stepper (the `options` sub-struct used by the unit tests): particle
mass, integration tolerance, minimum step-size floor and trial ceiling. -/
structure StepOptions where
  mass : ℚ
  tolerance : ℚ
  stepSizeCutOff : ℚ
  maxRungeKuttaStepTrials : ℕ

/-- Modelled from the spec: floor put under the local truncation error
estimate by the stepper (the code uses `max(error, 1e-20)` so that the
shrink factor stays finite). -/
def errorFloor : ℚ := 1 / 10 ^ 20

/-- Modelled from the spec: the step-size scaling of one rejected trial: the
factor derived from the error ratio (`scaleFn` stands for the quartic-root
formula of the embedded error control, irrational in general) clamped to the
maximum shrink and grow ratios `[1/4, 4]`. -/
def shrinkFactor (scaleFn : ℚ → ℚ) (err : ℚ) : ℚ :=
  min (max (1 / 4 : ℚ) (scaleFn err)) 4

/-- Modelled from the spec: the adaptive trial loop of `EigenStepper::step`.
One trial evaluates the embedded error estimate `errEst h` for the current
step size `h`; if it meets the tolerance the step size is accepted.  Otherwise
the step size is multiplied by the clamped shrink factor and the loop retries.
A shrunken step size whose square falls below the square of the configured
floor aborts the loop with `StepSizeStalled`; exhausting the trial ceiling
(the `fuel` argument, the number of retries still allowed) aborts with
`StepSizeAdjustmentFailed`.  The fuel counter mirrors the
`nStepTrials > maxRungeKuttaStepTrials` exit of the code, so the loop is
bounded by construction. -/
def rkTrialLoop (errEst : ℚ → ℚ) (scaleFn : ℚ → ℚ) (tol cutOff : ℚ)
    (fuel : ℕ) (h : ℚ) : Except EigenStepperError ℚ :=
  if errEst h ≤ tol then .ok h
  else if (h * shrinkFactor scaleFn (errEst h)) *
          (h * shrinkFactor scaleFn (errEst h)) < cutOff * cutOff then
    .error .StepSizeStalled
  else
    match fuel with
    | 0 => .error .StepSizeAdjustmentFailed
    | fuel' + 1 =>
      rkTrialLoop errEst scaleFn tol cutOff fuel'
        (h * shrinkFactor scaleFn (errEst h))

/-- Modelled from the spec: one fourth-order Runge-Kutta evaluation of the
equations of motion under the Lorentz force, the four stages `k1..k4` taken at
the current point and three trial midpoints determined by the step size `h`.
`B` is the field sampling collaborator and `qop` the signed inverse momentum.
Returns the advanced position and the advanced (pre-normalization) direction;
the final unit normalization is the identity whenever the stage contributions
vanish, as on the zero-field trajectories studied here, and is therefore not
re-modelled over the rationals. -/
def rk4Step (B : Vec3 → Vec3) (qop : ℚ) (pos dir : Vec3) (h : ℚ) :
    Vec3 × Vec3 :=
  let k1 := qop • cross dir (B pos)
  let pos2 : Vec3 := pos + (h / 2) • dir + (h ^ 2 / 8) • k1
  let B2 := B pos2
  let k2 := qop • cross (dir + (h / 2) • k1) B2
  let k3 := qop • cross (dir + (h / 2) • k2) B2
  let pos3 : Vec3 := pos + h • dir + (h ^ 2 / 2) • k3
  let k4 := qop • cross (dir + h • k3) (B pos3)
  (pos + h • dir + (h ^ 2 / 6) • (k1 + k2 + k3),
   dir + (h / 6) • (k1 + 2 • k2 + 2 • k3 + k4))

/-- Modelled from the spec: the embedded local truncation error estimate of
one Runge-Kutta trial, `h^2 * |k1 - k2 - k3 + k4|_1` floored at `errorFloor`,
computed from the same four stages as the step itself. -/
def errEstRK (B : Vec3 → Vec3) (qop : ℚ) (pos dir : Vec3) (h : ℚ) : ℚ :=
  let k1 := qop • cross dir (B pos)
  let pos2 : Vec3 := pos + (h / 2) • dir + (h ^ 2 / 8) • k1
  let B2 := B pos2
  let k2 := qop • cross (dir + (h / 2) • k1) B2
  let k3 := qop • cross (dir + (h / 2) • k2) B2
  let pos3 : Vec3 := pos + h • dir + (h ^ 2 / 2) • k3
  let k4 := qop • cross (dir + h • k3) (B pos3)
  let d : Vec3 := k1 - k2 - k3 + k4
  max (h * h * (|d 0| + |d 1| + |d 2|)) errorFloor

/-- Modelled from the spec: the free trajectory state advanced in vacuum by
the default extension: position, unit direction, absolute momentum and
accumulated path length (momentum is only modified by the dense extension,
never by the default one). -/
structure VacState where
  pos : Vec3
  dir : Vec3
  p : ℚ
  path : ℚ

/-- Modelled from the spec: one accepted vacuum step of length `h`: the
trajectory is advanced by the Runge-Kutta stages, the path length accumulates
`h`, and the momentum magnitude is untouched. -/
def vacStepOnce (B : Vec3 → Vec3) (qop : ℚ) (s : VacState) (h : ℚ) :
    VacState :=
  let pd := rk4Step B qop s.pos s.dir h
  { pos := pd.1, dir := pd.2, p := s.p, path := s.path + h }

/-- Modelled from the spec: a propagation is the fold of accepted steps. -/
def vacPropagate (B : Vec3 → Vec3) (qop : ℚ) (s : VacState) (hs : List ℚ) :
    VacState :=
  hs.foldl (vacStepOnce B qop) s

/-- The zero magnetic field, as `NullBField` / a zero `ConstantBField`. -/
def zeroField : Vec3 → Vec3 := fun _ => 0

/-- Source tags of the step-size constraints, as `ConstrainedStep::Type`. -/
inductive StepTag where
  | accuracy
  | actor
  | aborter
  | user
deriving DecidableEq, Repr

/-- Modelled from the spec: the sentinel stored in an unconstrained slot of
the constraint table, the exact stand-in for the
`std::numeric_limits<double>::max()` used by the code. -/
def stepSentinel : ℚ := 10 ^ 308

/-- Modelled from the spec: the signed, multiply-constrained step size: an
explicit fixed-size map from source tag to signed bound, plus the navigation
direction (`1` forward, `-1` backward).  Unconstrained slots hold the signed
sentinel. -/
structure ConstrainedStep where
  accuracy : ℚ
  actor : ℚ
  aborter : ℚ
  user : ℚ
  direction : ℤ
deriving DecidableEq, Repr

/-- Modelled from the spec: a fresh constraint table built from a signed
initial value: the accuracy slot takes the value, every other slot the signed
sentinel, and the navigation direction follows the sign of the value. -/
def ConstrainedStep.init (v : ℚ) : ConstrainedStep :=
  let d : ℤ := if 0 < v then 1 else -1
  { accuracy := v, actor := (d : ℚ) * stepSentinel,
    aborter := (d : ℚ) * stepSentinel, user := (d : ℚ) * stepSentinel,
    direction := d }

/-- Read one slot of the constraint table by tag. -/
def ConstrainedStep.slot (cs : ConstrainedStep) : StepTag → ℚ
  | .accuracy => cs.accuracy
  | .actor => cs.actor
  | .aborter => cs.aborter
  | .user => cs.user

/-- Write one slot of the constraint table by tag. -/
def ConstrainedStep.setSlot (cs : ConstrainedStep) (t : StepTag) (v : ℚ) :
    ConstrainedStep :=
  match t with
  | .accuracy => { cs with accuracy := v }
  | .actor => { cs with actor := v }
  | .aborter => { cs with aborter := v }
  | .user => { cs with user := v }

/-- Modelled from the spec: the active step-size value is the tightest bound
for the navigation direction: the smallest slot when stepping forward, the
largest (closest to zero among the negative bounds) when stepping backward. -/
def ConstrainedStep.value (cs : ConstrainedStep) : ℚ :=
  if cs.direction = 1 then
    min (min cs.accuracy cs.actor) (min cs.aborter cs.user)
  else
    max (max cs.accuracy cs.actor) (max cs.aborter cs.user)

/-- Source tag of the active constraint: the first slot, in the fixed order
accuracy, actor, aborter, user, holding the active value. -/
def ConstrainedStep.activeTag (cs : ConstrainedStep) : StepTag :=
  if cs.accuracy = cs.value then .accuracy
  else if cs.actor = cs.value then .actor
  else if cs.aborter = cs.value then .aborter
  else .user

/-- Modelled from the spec: releasing a constraint resets its slot to the
signed sentinel, leaving every other slot untouched. -/
def ConstrainedStep.release (cs : ConstrainedStep) (t : StepTag) :
    ConstrainedStep :=
  cs.setSlot t ((cs.direction : ℚ) * stepSentinel)

/-- Modelled from the spec: updating a slot first performs the optional
release, then keeps the tighter (smaller magnitude) of the resident bound and
the proposed value. -/
def ConstrainedStep.update (cs : ConstrainedStep) (v : ℚ) (t : StepTag)
    (releaseStep : Bool) : ConstrainedStep :=
  let cs' := if releaseStep then cs.release t else cs
  let c := cs'.slot t
  cs'.setSlot t (if c * c < v * v then c else v)

/-- Modelled from the spec: the step-size part of the stepping state touched
by the override and release operations of the stepper. -/
structure StepSizeState where
  stepSize : ConstrainedStep
  previousStepSize : ℚ
deriving DecidableEq, Repr

/-- Modelled from the spec: `EigenStepper::setStepSize` overrides the actor
constraint: it remembers the active value as the previous step size and
updates the actor slot with release. -/
def setStepSize (s : StepSizeState) (v : ℚ) : StepSizeState :=
  { stepSize := s.stepSize.update v .actor true,
    previousStepSize := s.stepSize.value }

/-- Modelled from the spec: `EigenStepper::releaseStepSize` releases the
actor constraint of the table. -/
def releaseStepSize (s : StepSizeState) : StepSizeState :=
  { s with stepSize := s.stepSize.release .actor }

/-- Modelled from the spec: the kinematic state advanced by the
extension-aware stepping studied in the region tests: the position along the
propagation axis and the absolute momentum. -/
structure DenseState where
  x : ℚ
  p : ℚ
deriving DecidableEq, Repr

/-- Modelled from the spec: the vacuum step of the `DefaultExtension`: the
trajectory advances, the momentum magnitude is untouched. -/
def defaultStepImpl (s : DenseState) (h : ℚ) : DenseState :=
  { x := s.x + h, p := s.p }

/-- Modelled from the spec: the material step of the
`DenseEnvironmentExtension`: the trajectory advances and `finalize` applies
the accumulated energy loss, computed by the material collaborator `eloss`
from the momentum and the step length. -/
def denseStepImpl (eloss : ℚ → ℚ → ℚ) (s : DenseState) (h : ℚ) : DenseState :=
  { x := s.x + h, p := s.p - eloss s.p h }

/-- Modelled from the spec: a physics extension: a validity predicate over the
current state, a numeric bid cast during arbitration, and the step it
contributes when it wins. -/
structure Extension where
  isValid : DenseState → Bool
  bid : ℕ
  stepImpl : DenseState → ℚ → DenseState

/-- Modelled from the spec: the `DefaultExtension` is valid everywhere and
casts the lower bid. -/
def defaultExtension : Extension :=
  { isValid := fun _ => true, bid := 1, stepImpl := defaultStepImpl }

/-- Modelled from the spec: the `DenseEnvironmentExtension` is valid exactly
inside a material-bearing region (`mat` flags material at a position) and
casts the higher bid, pre-empting the default extension there. -/
def denseExtension (mat : ℚ → Bool) (eloss : ℚ → ℚ → ℚ) : Extension :=
  { isValid := fun s => mat s.x, bid := 2, stepImpl := denseStepImpl eloss }

/-- Modelled from the spec: the `HighestValidAuctioneer` policy: among the
valid extensions the highest bid wins, ties broken by registration order. -/
def highestValidAuctioneer (exts : List Extension) (s : DenseState) :
    Option Extension :=
  (exts.filter (fun e => e.isValid s)).foldl
    (fun best e =>
      match best with
      | none => some e
      | some b => if b.bid < e.bid then some e else some b)
    none

/-- Modelled from the spec: one step of the combined stepper: arbitration
selects exactly one winning extension whose step advances the state; with no
valid extension the state is left in place. -/
def combinedStep (exts : List Extension) (s : DenseState) (h : ℚ) :
    DenseState :=
  match highestValidAuctioneer exts s with
  | some e => e.stepImpl s h
  | none => s

/-- Modelled from the spec: the combined stepper registered with the default
and the dense-environment extensions under the highest-valid policy. -/
def vacMatExts (mat : ℚ → Bool) (eloss : ℚ → ℚ → ℚ) : List Extension :=
  [defaultExtension, denseExtension mat eloss]

/-- Propagation with the combined stepper: fold of the accepted steps. -/
def combinedRun (mat : ℚ → Bool) (eloss : ℚ → ℚ → ℚ) (s : DenseState)
    (hs : List ℚ) : DenseState :=
  hs.foldl (combinedStep (vacMatExts mat eloss)) s

/-- Propagation with the vacuum-only stepper (only the default extension). -/
def vacuumRun (s : DenseState) (hs : List ℚ) : DenseState :=
  hs.foldl defaultStepImpl s

/-- Propagation with the material-only stepper (only the dense extension). -/
def denseRun (eloss : ℚ → ℚ → ℚ) (s : DenseState) (hs : List ℚ) : DenseState :=
  hs.foldl (denseStepImpl eloss) s

/-- Stated from the words of the spec sentence under verification: the
piecewise reference run propagates through the first region with the
vacuum-only stepper and restarts the material-only stepper from the exit
point of the first run. -/
def piecewiseRun (eloss : ℚ → ℚ → ℚ) (s : DenseState) (hs1 hs2 : List ℚ) :
    DenseState :=
  denseRun eloss (vacuumRun s hs1) hs2

/-- Every step of the list starts from a vacuum position: the region flag is
false at the state reached before each step of the vacuum-only run. -/
def allVacuum (mat : ℚ → Bool) : DenseState → List ℚ → Bool
  | _, [] => true
  | s, h :: t => !mat s.x && allVacuum mat (defaultStepImpl s h) t

/-- Every step of the list starts from a material position: the region flag is
true at the state reached before each step of the material-only run. -/
def allMaterial (mat : ℚ → Bool) (eloss : ℚ → ℚ → ℚ) :
    DenseState → List ℚ → Bool
  | _, [] => true
  | s, h :: t => mat s.x && allMaterial mat eloss (denseStepImpl eloss s h) t

/-- Modelled from the spec: the full stepping state of `EigenStepper::State`:
the free trajectory state (position, unit direction, absolute momentum,
signed charge, time), the navigation direction, the accumulated path length,
the current and previous step sizes, the integration tolerance, the
covariance-transport flag, the bound covariance, the bound-to-free Jacobian,
the free transport Jacobian and the first-derivative vector. -/
structure EigenStepperState where
  pos : Vec3
  dir : Vec3
  p : ℚ
  q : ℚ
  t : ℚ
  navDir : ℤ
  pathAccumulated : ℚ
  stepSize : ℚ
  previousStepSize : ℚ
  tolerance : ℚ
  covTransport : Bool
  cov : Matrix (Fin 6) (Fin 6) ℚ
  jacToGlobal : Matrix (Fin 8) (Fin 6) ℚ
  jacTransport : Matrix (Fin 8) (Fin 8) ℚ
  derivative : Fin 8 → ℚ

/-- Modelled from the spec: the bound-to-free Jacobian of a curvilinear frame
attached at direction `dir`; the claims only rely on it being set (nonzero)
when an initial covariance is supplied, so a simple definite block mapping
the local frame onto the global one is used. -/
def curvJacToGlobal (dir : Vec3) : Matrix (Fin 8) (Fin 6) ℚ :=
  Matrix.of fun i j =>
    if (i : ℕ) = (j : ℕ) then 1
    else if (i : ℕ) = 4 + (j : ℕ) then dir 0 + 1
    else 0

/-- Modelled from the spec: construction of the stepping state from track
parameters: the trajectory fields are copied, the accumulated path starts at
zero, the step size takes the navigation-signed initial value, the previous
step size starts at zero; the transport Jacobian is reset to the identity and
the derivative to zero; covariance transport is flagged active, the supplied
covariance stored and the bound-to-free Jacobian seeded exactly when a
covariance is supplied, otherwise the flag is inactive, the stored covariance
zero and the bound-to-free Jacobian zero. -/
def makeEigenStepperState (cov? : Option (Matrix (Fin 6) (Fin 6) ℚ))
    (pos dir : Vec3) (p q t : ℚ) (ndir : ℤ) (ssize tol : ℚ) :
    EigenStepperState :=
  { pos := pos, dir := dir, p := p, q := q, t := t, navDir := ndir,
    pathAccumulated := 0, stepSize := (ndir : ℚ) * ssize,
    previousStepSize := 0, tolerance := tol,
    covTransport := cov?.isSome, cov := cov?.getD 0,
    jacToGlobal := match cov? with
      | some _ => curvJacToGlobal dir
      | none => 0,
    jacTransport := 1, derivative := 0 }

/-- Modelled from the spec: the per-step free transport matrix assembled from
the stage evaluations; the accumulated transport Jacobian is chained
multiplicatively with it.  A definite first-order coupling of the position
rows to the direction columns is used. -/
def transportMat (h : ℚ) : Matrix (Fin 8) (Fin 8) ℚ :=
  1 + h • Matrix.of (fun i j : Fin 8 =>
    if (i : ℕ) < 3 ∧ (j : ℕ) = (i : ℕ) + 4 then 1 else 0)

/-- Modelled from the spec: the first-derivative vector stored after an
accepted step: the rate of change of the free parameters at the end point,
assembled from the advanced direction. -/
def derivAt (B : Vec3 → Vec3) (qop : ℚ) (pos dir : Vec3) (h : ℚ) :
    Fin 8 → ℚ :=
  let pd := rk4Step B qop pos dir h
  ![pd.2 0, pd.2 1, pd.2 2, 1, 0, 0, 0, 0]

/-- The embedded error estimate of a trial at step size `h`, read off the
trajectory fields of the stepping state (and nothing else). -/
def errEstAt (B : Vec3 → Vec3) (s : EigenStepperState) (h : ℚ) : ℚ :=
  errEstRK B (s.q / s.p) s.pos s.dir h

/-- The adaptive trial loop run on a stepping state: the error estimate is the
embedded one at the current trajectory, the initial trial uses the current
step size, and the fuel is the configured trial ceiling. -/
def stepLoopOf (B : Vec3 → Vec3) (scaleFn : ℚ → ℚ) (opts : StepOptions)
    (s : EigenStepperState) : Except EigenStepperError ℚ :=
  rkTrialLoop (errEstAt B s) scaleFn opts.tolerance opts.stepSizeCutOff
    opts.maxRungeKuttaStepTrials s.stepSize

/-- Modelled from the spec: `EigenStepper::step`: the adaptive trial loop
settles the accepted step size or fails with an integration error; on
acceptance position, direction and time advance by the stage evaluations, the
path length accumulates, and, exactly when covariance transport is active, the
transport Jacobian is chained with the per-step transport matrix and the
derivative vector refreshed; the covariance matrix itself is only touched by a
later covariance-transport request, never by the step. -/
def eigenStep (B : Vec3 → Vec3) (scaleFn : ℚ → ℚ) (opts : StepOptions)
    (s : EigenStepperState) : Except EigenStepperError (ℚ × EigenStepperState) :=
  match stepLoopOf B scaleFn opts s with
  | .error e => .error e
  | .ok h =>
    let pd := rk4Step B (s.q / s.p) s.pos s.dir h
    .ok (h,
      { s with
        pos := pd.1, dir := pd.2, t := s.t + h,
        pathAccumulated := s.pathAccumulated + h,
        stepSize := h,
        jacTransport :=
          if s.covTransport then transportMat h * s.jacTransport
          else s.jacTransport,
        derivative :=
          if s.covTransport then derivAt B (s.q / s.p) s.pos s.dir h
          else s.derivative })

/-- Modelled from the spec: the traits of a cyclic angular coordinate: values
are wrapped into the period-4 window `[-2, 2)` on writes, and exactly that
window is the valid range. -/
def cyclicTraits : ParamTraits where
  may_modify_value := true
  getValue := fun v => 4 * Int.fract ((v + 2) / 4) - 2
  isValid := fun v => decide (-2 ≤ v ∧ v < 2)
  valid_getValue := by
    intro v
    rw [decide_eq_true_iff]
    have h0 := Int.fract_nonneg ((v + 2) / 4)
    have h1 := Int.fract_lt_one ((v + 2) / 4)
    constructor <;> linarith
  valid_of_free := by intro h; simp at h

/-- Modelled from the spec: the traits of an unbounded coordinate: writes are
not corrected and every value is valid. -/
def freeTraits : ParamTraits where
  may_modify_value := false
  getValue := id
  isValid := fun _ => true
  valid_getValue := fun _ => rfl
  valid_of_free := fun _ _ => rfl

/-- Concrete region flag used by the witnesses: material at `1 ≤ x`. -/
def matW : ℚ → Bool := fun x => decide (1 ≤ x)

/-- Concrete energy-loss collaborator used by the witnesses. -/
def elossW : ℚ → ℚ → ℚ := fun _ h => h / 10

/-- Concrete stepping state used by the witnesses, mirroring the unit-test
setup (backward navigation, step size 123, tolerance 234). -/
def sampleState : EigenStepperState :=
  { pos := ![1, 2, 3], dir := ![1, 0, 0], p := 5, q := -1, t := 7,
    navDir := -1, pathAccumulated := 0, stepSize := 123,
    previousStepSize := 0, tolerance := 234, covTransport := false,
    cov := 0, jacToGlobal := 0, jacTransport := 1, derivative := 0 }

/-- Concrete constraint table used by the counterexample: backward
navigation, an accuracy bound of -123 and an actor bound of -2 set by a
previous caller. -/
def busyStepSizeState : StepSizeState :=
  { stepSize := { accuracy := -123, actor := -2,
                  aborter := -stepSentinel, user := -stepSentinel,
                  direction := -1 },
    previousStepSize := 0 }

/-- C7, counterexample: a direction whose dot product with the surface normal
is near zero (here `1/1000000`) but not exactly zero does not yield the
no-intersection result: the division is evaluated and the returned
intersection is flagged valid, contradicting the claim that near-zero
denominators are reported as no intersection. -/
theorem intersectionEstimate_nearZero_counterexample :
    dot ![1, 0, 1 / 1000000]
        (DiscSurface.mk ![0, 0, 0] ![0, 0, 1]).normal ≠ 0 ∧
    |dot ![1, 0, 1 / 1000000]
        (DiscSurface.mk ![0, 0, 0] ![0, 0, 1]).normal| < 1 / 1000 ∧
    ((DiscSurface.mk ![0, 0, 0] ![0, 0, 1]).intersectionEstimate
        (fun _ => true) ![0, 0, 1] ![1, 0, 1 / 1000000] false false).valid
      = true := by
  refine ⟨by norm_num [dot], by norm_num [dot, abs_lt], ?_⟩
  norm_num [DiscSurface.intersectionEstimate, dot]

/-- C7, amended: for every surface, boundary-check collaborator, global
position and direction whose dot product with the surface normal is exactly
zero, `intersectionEstimate` returns the explicit no-intersection result
`(gpos, 0, false)` without evaluating the division by that denominator; any
nonzero denominator, however small, is divided through (a finite value in the
exact arithmetic of the model). -/
theorem intersectionEstimate_zero_denominator (s : DiscSurface)
    (isOnSurf : Vec3 → Bool) (gpos dir : Vec3) (forceDir bchk : Bool)
    (hden : dot dir s.normal = 0) :
    s.intersectionEstimate isOnSurf gpos dir forceDir bchk =
      { position := gpos, pathLength := 0, valid := false } := by
  unfold DiscSurface.intersectionEstimate
  simp [hden]

/-- C7, witness: a direction parallel to the disc plane satisfies the
zero-denominator hypothesis and produces the no-intersection result. -/
theorem intersectionEstimate_zero_denominator_witness :
    dot ![1, 0, 0] (DiscSurface.mk ![0, 0, 0] ![0, 0, 1]).normal = 0 ∧
    (DiscSurface.mk ![0, 0, 0] ![0, 0, 1]).intersectionEstimate
        (fun _ => true) ![5, 5, 5] ![1, 0, 0] true true =
      { position := ![5, 5, 5], pathLength := 0, valid := false } :=
  ⟨by norm_num [dot],
   intersectionEstimate_zero_denominator _ _ _ _ _ _ (by norm_num [dot])⟩

/-- C9: for every parameter pack and value vector of matching length, after
`value_corrector` runs, every value lies within the valid range of its
parameter: coordinates whose parameter type may modify values are wrapped by
`getValue`, the rest are untouched and unconditionally in range; the
correction is the write path itself and touches nothing else. -/
theorem value_corrector_postcondition (ts : List ParamTraits) (vs : List ℚ)
    (hlen : ts.length = vs.length) :
    List.Forall₂ (fun t w => t.isValid w = true) ts (value_corrector ts vs) := by
  induction ts generalizing vs with
  | nil => simp [value_corrector]
  | cons t ts ih =>
    cases vs with
    | nil => simp at hlen
    | cons v vs =>
      simp only [value_corrector, List.zipWith_cons_cons]
      refine List.Forall₂.cons ?_ (ih vs (by simpa using hlen))
      cases hb : t.may_modify_value with
      | true => simpa [hb] using t.valid_getValue v
      | false => simpa [hb] using t.valid_of_free hb v

/-- C9, witness: a cyclic and an unbounded coordinate, with an out-of-range
write to the cyclic one. -/
theorem value_corrector_postcondition_witness :
    ([cyclicTraits, freeTraits].length = [(7 : ℚ), (5 : ℚ)].length) ∧
    List.Forall₂ (fun t w => t.isValid w = true) [cyclicTraits, freeTraits]
      (value_corrector [cyclicTraits, freeTraits] [(7 : ℚ), (5 : ℚ)]) :=
  ⟨rfl, value_corrector_postcondition _ _ rfl⟩

theorem cross_zero_right (a : Vec3) : cross a 0 = 0 := by
  funext i
  fin_cases i <;> simp [cross]

theorem vacStepOnce_zeroField (qop : ℚ) (s : VacState) (h : ℚ) :
    vacStepOnce zeroField qop s h =
      { pos := s.pos + h • s.dir, dir := s.dir, p := s.p,
        path := s.path + h } := by
  unfold vacStepOnce rk4Step zeroField
  simp [cross_zero_right]

theorem vacPropagate_zeroField (qop : ℚ) (s : VacState) (hs : List ℚ) :
    vacPropagate zeroField qop s hs =
      { pos := s.pos + hs.sum • s.dir, dir := s.dir, p := s.p,
        path := s.path + hs.sum } := by
  induction hs generalizing s with
  | nil => simp [vacPropagate]
  | cons h t ih =>
    simp only [vacPropagate, List.foldl_cons] at *
    rw [vacStepOnce_zeroField, ih]
    simp [List.sum_cons, add_smul, add_assoc]

/-- C2: with zero magnetic field (and no material extension active), from any
initial state the propagation is a straight line: after the accepted steps
the accumulated path length is their sum `L`, the position equals the initial
position plus `L` times the initial direction (exactly, in the exact
arithmetic of the model), and the momentum vector is unchanged. -/
theorem vacuum_straight_line (pos₀ dir₀ : Vec3) (p₀ qop : ℚ) (hs : List ℚ) :
    (vacPropagate zeroField qop ⟨pos₀, dir₀, p₀, 0⟩ hs).path = hs.sum ∧
    (vacPropagate zeroField qop ⟨pos₀, dir₀, p₀, 0⟩ hs).pos =
      pos₀ + (vacPropagate zeroField qop ⟨pos₀, dir₀, p₀, 0⟩ hs).path • dir₀ ∧
    (vacPropagate zeroField qop ⟨pos₀, dir₀, p₀, 0⟩ hs).dir = dir₀ ∧
    (vacPropagate zeroField qop ⟨pos₀, dir₀, p₀, 0⟩ hs).p •
        (vacPropagate zeroField qop ⟨pos₀, dir₀, p₀, 0⟩ hs).dir =
      p₀ • dir₀ := by
  rw [vacPropagate_zeroField]
  refine ⟨by simp, by simp, rfl, rfl⟩

theorem errorFloor_le_errEstAt (B : Vec3 → Vec3) (s : EigenStepperState)
    (h : ℚ) : errorFloor ≤ errEstAt B s h := by
  unfold errEstAt errEstRK
  exact le_max_right _ _

theorem rkTrialLoop_never_converges (errEst scaleFn : ℚ → ℚ) (tol : ℚ)
    (hne : ∀ h, tol < errEst h) :
    ∀ fuel h, rkTrialLoop errEst scaleFn tol 0 fuel h =
      .error .StepSizeAdjustmentFailed := by
  intro fuel
  induction fuel with
  | zero =>
    intro h
    rw [rkTrialLoop, if_neg (not_le.mpr (hne h)),
      if_neg (by simpa using
        not_lt.mpr (mul_self_nonneg (h * shrinkFactor scaleFn (errEst h))))]
  | succ n ih =>
    intro h
    rw [rkTrialLoop, if_neg (not_le.mpr (hne h)),
      if_neg (by simpa using
        not_lt.mpr (mul_self_nonneg (h * shrinkFactor scaleFn (errEst h))))]
    exact ih _

/-- C3: for every stepping state and options under which the error estimate
never meets the tolerance (so the trial ceiling is exceeded before
convergence) and whose step-size floor is disabled (so no stall intervenes),
`step` terminates and returns the error `StepSizeAdjustmentFailed`: the loop
is bounded by the trial ceiling by construction and no truncated step is
accepted. -/
theorem step_trial_ceiling_adjustment_failed (B : Vec3 → Vec3)
    (scaleFn : ℚ → ℚ) (opts : StepOptions) (s : EigenStepperState)
    (hne : ∀ h, opts.tolerance < errEstAt B s h)
    (hcut : opts.stepSizeCutOff = 0) :
    eigenStep B scaleFn opts s = .error .StepSizeAdjustmentFailed := by
  unfold eigenStep stepLoopOf
  rw [hcut, rkTrialLoop_never_converges _ _ _ hne]

/-- C3, witness: the unit-test setup: a zero field with a tolerance below the
error-estimate floor and a disabled step-size floor exceeds the trial
ceiling and fails with `StepSizeAdjustmentFailed`. -/
theorem step_trial_ceiling_adjustment_failed_witness :
    eigenStep zeroField (fun _ => 1)
      { mass := 42, tolerance := 0, stepSizeCutOff := 0,
        maxRungeKuttaStepTrials := 3 } sampleState =
    .error .StepSizeAdjustmentFailed :=
  step_trial_ceiling_adjustment_failed _ _ _ _
    (fun h => lt_of_lt_of_le (by norm_num [errorFloor])
      (errorFloor_le_errEstAt _ _ h))
    rfl

/-- C4: for every stepping state and options, if the shrunken step size of a
rejected trial falls below the configured minimum floor `stepSizeCutOff`
before the error estimate converges, `step` returns `StepSizeStalled` rather
than continuing to shrink. -/
theorem step_size_stalled (B : Vec3 → Vec3) (scaleFn : ℚ → ℚ)
    (opts : StepOptions) (s : EigenStepperState)
    (h1 : opts.tolerance < errEstAt B s s.stepSize)
    (h2 : (s.stepSize * shrinkFactor scaleFn (errEstAt B s s.stepSize)) *
            (s.stepSize * shrinkFactor scaleFn (errEstAt B s s.stepSize)) <
          opts.stepSizeCutOff * opts.stepSizeCutOff) :
    eigenStep B scaleFn opts s = .error .StepSizeStalled := by
  unfold eigenStep stepLoopOf
  rw [rkTrialLoop.eq_def, if_neg (not_le.mpr h1), if_pos h2]

/-- C4, witness: the unit-test setup: a zero field, a tolerance of `1e-21`
(below the error-estimate floor) and a huge floor of `1e20` stall the step. -/
theorem step_size_stalled_witness :
    eigenStep zeroField (fun _ => 1)
      { mass := 42, tolerance := 1 / 10 ^ 21, stepSizeCutOff := 10 ^ 20,
        maxRungeKuttaStepTrials := 10000 } sampleState =
    .error .StepSizeStalled :=
  step_size_stalled _ _ _ _
    (by
      have hfloor : (1 : ℚ) / 10 ^ 21 < errorFloor := by norm_num [errorFloor]
      exact lt_of_lt_of_le hfloor (errorFloor_le_errEstAt _ _ _))
    (by
      have hs : shrinkFactor (fun _ => 1)
          (errEstAt zeroField sampleState sampleState.stepSize) = 1 := by
        simp [shrinkFactor]
        norm_num
      rw [hs]
      norm_num [sampleState])

theorem combinedStep_vacuum (mat : ℚ → Bool) (eloss : ℚ → ℚ → ℚ)
    (s : DenseState) (h : ℚ) (hm : mat s.x = false) :
    combinedStep (vacMatExts mat eloss) s h = defaultStepImpl s h := by
  simp [combinedStep, highestValidAuctioneer, vacMatExts, defaultExtension,
    denseExtension, hm]

theorem combinedStep_material (mat : ℚ → Bool) (eloss : ℚ → ℚ → ℚ)
    (s : DenseState) (h : ℚ) (hm : mat s.x = true) :
    combinedStep (vacMatExts mat eloss) s h = denseStepImpl eloss s h := by
  simp [combinedStep, highestValidAuctioneer, vacMatExts, defaultExtension,
    denseExtension, hm]

/-- C5: per accepted step of the combined stepper under highest-valid
arbitration, in a material-bearing region the dense extension wins and the
momentum magnitude does not increase (no energy gain, given a nonnegative
energy loss from the material collaborator); in a region without material the
default extension wins and the momentum magnitude is exactly unchanged. -/
theorem material_momentum_nonincreasing (mat : ℚ → Bool)
    (eloss : ℚ → ℚ → ℚ) (s : DenseState) (h : ℚ)
    (hel : 0 ≤ eloss s.p h) :
    (mat s.x = true →
      (combinedStep (vacMatExts mat eloss) s h).p ≤ s.p) ∧
    (mat s.x = false →
      (combinedStep (vacMatExts mat eloss) s h).p = s.p) := by
  constructor
  · intro hm
    rw [combinedStep_material mat eloss s h hm]
    simpa [denseStepImpl] using sub_le_self s.p hel
  · intro hm
    rw [combinedStep_vacuum mat eloss s h hm]
    rfl

/-- C5, witness: a step inside the material region with a positive energy
loss. -/
theorem material_momentum_nonincreasing_witness :
    (0 ≤ elossW (5 : ℚ) (1 / 10)) ∧
    ((matW (3 / 2 : ℚ) = true →
      (combinedStep (vacMatExts matW elossW) ⟨3 / 2, 5⟩ (1 / 10)).p ≤ 5) ∧
     (matW (3 / 2 : ℚ) = false →
      (combinedStep (vacMatExts matW elossW) ⟨3 / 2, 5⟩ (1 / 10)).p = 5)) :=
  ⟨by norm_num [elossW],
   material_momentum_nonincreasing matW elossW ⟨3 / 2, 5⟩ (1 / 10)
     (by norm_num [elossW])⟩

theorem combinedRun_vacuum (mat : ℚ → Bool) (eloss : ℚ → ℚ → ℚ) :
    ∀ (hs : List ℚ) (s : DenseState), allVacuum mat s hs = true →
      combinedRun mat eloss s hs = vacuumRun s hs := by
  intro hs
  induction hs with
  | nil => intro s _; rfl
  | cons h t ih =>
    intro s hv
    rw [allVacuum] at hv
    rw [Bool.and_eq_true, Bool.not_eq_true'] at hv
    simp only [combinedRun, vacuumRun, List.foldl_cons]
    rw [combinedStep_vacuum mat eloss s h hv.1]
    exact ih (defaultStepImpl s h) hv.2

theorem combinedRun_material (mat : ℚ → Bool) (eloss : ℚ → ℚ → ℚ) :
    ∀ (hs : List ℚ) (s : DenseState), allMaterial mat eloss s hs = true →
      combinedRun mat eloss s hs = denseRun eloss s hs := by
  intro hs
  induction hs with
  | nil => intro s _; rfl
  | cons h t ih =>
    intro s hv
    rw [allMaterial] at hv
    rw [Bool.and_eq_true] at hv
    simp only [combinedRun, denseRun, List.foldl_cons]
    rw [combinedStep_material mat eloss s h hv.1]
    exact ih (denseStepImpl eloss s h) hv.2

/-- C1: for a vacuum then material region layout, if every step of the first
leg starts in vacuum and every step of the second leg starts in material,
then the combined stepper (default plus dense-environment extension under
highest-valid arbitration) agrees exactly with the piecewise reference at
both shared boundaries: at the first boundary with the vacuum-only run, and
at the second with the material-only run restarted from the exit point of
the first run (exact equality of position and momentum, hence within any
tolerance). -/
theorem vacmatvac_piecewise_agrees (mat : ℚ → Bool) (eloss : ℚ → ℚ → ℚ)
    (s0 : DenseState) (hs1 hs2 : List ℚ)
    (hv : allVacuum mat s0 hs1 = true)
    (hm : allMaterial mat eloss (vacuumRun s0 hs1) hs2 = true) :
    combinedRun mat eloss s0 hs1 = vacuumRun s0 hs1 ∧
    combinedRun mat eloss s0 (hs1 ++ hs2) = piecewiseRun eloss s0 hs1 hs2 := by
  have h1 := combinedRun_vacuum mat eloss hs1 s0 hv
  refine ⟨h1, ?_⟩
  have happ : combinedRun mat eloss s0 (hs1 ++ hs2) =
      combinedRun mat eloss (combinedRun mat eloss s0 hs1) hs2 := by
    simp [combinedRun, List.foldl_append]
  rw [happ, h1, combinedRun_material mat eloss hs2 _ hm]
  rfl

/-- C1, witness: the vacuum to material layout with material at `1 ≤ x`,
starting at the origin, two half-steps through each region. -/
theorem vacmatvac_piecewise_agrees_witness :
    allVacuum matW ⟨0, 5⟩ [1 / 2, 1 / 2] = true ∧
    allMaterial matW elossW (vacuumRun ⟨0, 5⟩ [1 / 2, 1 / 2])
      [1 / 2, 1 / 2] = true ∧
    (combinedRun matW elossW ⟨0, 5⟩ [1 / 2, 1 / 2] =
        vacuumRun ⟨0, 5⟩ [1 / 2, 1 / 2] ∧
     combinedRun matW elossW ⟨0, 5⟩ ([1 / 2, 1 / 2] ++ [1 / 2, 1 / 2]) =
        piecewiseRun elossW ⟨0, 5⟩ [1 / 2, 1 / 2] [1 / 2, 1 / 2]) :=
  ⟨by norm_num [allVacuum, matW, defaultStepImpl],
   by norm_num [allMaterial, allVacuum, matW, elossW, vacuumRun,
     defaultStepImpl, denseStepImpl],
   vacmatvac_piecewise_agrees matW elossW ⟨0, 5⟩ [1 / 2, 1 / 2] [1 / 2, 1 / 2]
     (by norm_num [allVacuum, matW, defaultStepImpl])
     (by norm_num [allMaterial, allVacuum, matW, elossW, vacuumRun,
       defaultStepImpl, denseStepImpl])⟩

/-- C6, counterexample: on a state whose actor slot already holds a
constraint (set by a previous caller, here -2 under backward navigation),
overriding with `setStepSize` and then calling `releaseStepSize` does not
restore the pre-override state: the previously active actor constraint is
discarded and the active value changes from -2 to the accuracy bound -123,
so neither the active constraint nor the full table is restored. -/
theorem release_after_override_counterexample :
    (releaseStepSize (setStepSize busyStepSizeState 1337)).stepSize.value ≠
      busyStepSizeState.stepSize.value ∧
    (releaseStepSize (setStepSize busyStepSizeState 1337)).stepSize ≠
      busyStepSizeState.stepSize := by
  constructor
  · dsimp only [releaseStepSize, setStepSize, ConstrainedStep.update,
      ConstrainedStep.release, ConstrainedStep.setSlot, ConstrainedStep.slot,
      busyStepSizeState, ConstrainedStep.value]
    norm_num [stepSentinel, max_def]
  · intro he
    have ha := congrArg ConstrainedStep.actor he
    dsimp only [releaseStepSize, setStepSize, ConstrainedStep.update,
      ConstrainedStep.release, ConstrainedStep.setSlot, ConstrainedStep.slot,
      busyStepSizeState] at ha
    norm_num [stepSentinel] at ha

/-- C6, amended: provided the actor slot holds no constraint before the
override (it sits at the signed unconstrained sentinel, as in a freshly
constructed state), overriding the step size with `setStepSize` and then
calling `releaseStepSize` restores the full constraint table exactly to its
pre-override contents, and with it the active constraint value and source
tag; an actor constraint present before the override is instead discarded by
the override and is not restored. -/
theorem release_after_override_restores (s : StepSizeState) (v : ℚ)
    (hactor : s.stepSize.actor = (s.stepSize.direction : ℚ) * stepSentinel) :
    (releaseStepSize (setStepSize s v)).stepSize = s.stepSize ∧
    (releaseStepSize (setStepSize s v)).stepSize.value =
      s.stepSize.value ∧
    (releaseStepSize (setStepSize s v)).stepSize.activeTag =
      s.stepSize.activeTag := by
  have htab : (releaseStepSize (setStepSize s v)).stepSize = s.stepSize := by
    simp only [releaseStepSize, setStepSize, ConstrainedStep.update,
      ConstrainedStep.release, ConstrainedStep.setSlot, ConstrainedStep.slot,
      if_true]
    rw [← hactor]
  exact ⟨htab, by rw [htab], by rw [htab]⟩

/-- C6, witness: a freshly constructed backward constraint table (initial
value -123, as in the unit test) has an unconstrained actor slot, and
override by 1337 followed by release restores it exactly. -/
theorem release_after_override_restores_witness :
    (ConstrainedStep.init (-123)).actor =
      ((ConstrainedStep.init (-123)).direction : ℚ) * stepSentinel ∧
    ((releaseStepSize (setStepSize
        { stepSize := ConstrainedStep.init (-123), previousStepSize := 0 }
        1337)).stepSize = ConstrainedStep.init (-123) ∧
     (releaseStepSize (setStepSize
        { stepSize := ConstrainedStep.init (-123), previousStepSize := 0 }
        1337)).stepSize.value = (ConstrainedStep.init (-123)).value ∧
     (releaseStepSize (setStepSize
        { stepSize := ConstrainedStep.init (-123), previousStepSize := 0 }
        1337)).stepSize.activeTag =
       (ConstrainedStep.init (-123)).activeTag) :=
  ⟨by norm_num [ConstrainedStep.init],
   release_after_override_restores
     { stepSize := ConstrainedStep.init (-123), previousStepSize := 0 } 1337
     (by norm_num [ConstrainedStep.init])⟩

/-- C8: for every set of construction inputs, a stepping state built without
a covariance has the transport Jacobian reset to the identity, the derivative
vector zero and the covariance-transport flag inactive; built with a supplied
covariance, the flag is active and the stored covariance equals the supplied
one. -/
theorem state_construction_covariance_flags (pos dir : Vec3) (p q t : ℚ)
    (ndir : ℤ) (ssize tol : ℚ) (c : Matrix (Fin 6) (Fin 6) ℚ) :
    (makeEigenStepperState none pos dir p q t ndir ssize tol).jacTransport
        = 1 ∧
    (makeEigenStepperState none pos dir p q t ndir ssize tol).derivative
        = 0 ∧
    (makeEigenStepperState none pos dir p q t ndir ssize tol).covTransport
        = false ∧
    (makeEigenStepperState (some c) pos dir p q t ndir ssize tol).covTransport
        = true ∧
    (makeEigenStepperState (some c) pos dir p q t ndir ssize tol).cov = c :=
  ⟨rfl, rfl, rfl, rfl, rfl⟩

/-- C10: for every stepping state, the outcome of `step` projected to the
accepted path length is identical whether the covariance-transport flag is
set or not (the adaptive trial loop and the trajectory advance never read the
flag); moreover with the flag unset a successful step leaves the covariance
matrix, the transport Jacobian and the derivative vector unchanged. -/
theorem step_covtransport_independent (B : Vec3 → Vec3) (scaleFn : ℚ → ℚ)
    (opts : StepOptions) (s : EigenStepperState) :
    (eigenStep B scaleFn opts { s with covTransport := true }).map Prod.fst =
      (eigenStep B scaleFn opts { s with covTransport := false }).map
        Prod.fst ∧
    (eigenStep B scaleFn opts { s with covTransport := false }).map
        (fun r => (r.2.cov, r.2.jacTransport, r.2.derivative)) =
      (eigenStep B scaleFn opts { s with covTransport := false }).map
        (fun _ => (s.cov, s.jacTransport, s.derivative)) := by
  have hl : stepLoopOf B scaleFn opts { s with covTransport := true } =
      stepLoopOf B scaleFn opts { s with covTransport := false } := rfl
  constructor
  · unfold eigenStep
    rw [hl]
    cases stepLoopOf B scaleFn opts { s with covTransport := false } <;> rfl
  · unfold eigenStep
    cases stepLoopOf B scaleFn opts { s with covTransport := false } <;> rfl

end ActsSpec
